import Mathlib

/-!
Verification development for the Atlantic Diving Center CRM (src/app.py).

The application is a Flask app whose state lives in remote database tables
(clientes, usuarios, email_templates, marketing_email_lists).  We embed the
tables as Lean lists of records and each route handler or job as a pure
function from the old table state (plus the parsed request data) to the new
table state together with the observable response (flash message, return
flag, attempted sends).  External effects are abstracted as follows:

* SMTP sending (enviar_email / email_feedback) catches every exception and
  returns a boolean, so a send outcome is an oracle `sendOk : Cliente →
  String → Bool` (client, template type).
* datetime.now() is a value of type Agora: the calendar day number of
  hoje.date() plus the epoch-second value of hoje itself.  Timestamps are
  exact rationals (seconds); hours_since = seconds / 3600, and the
  comparison seconds / 3600 >= 24 is equivalent to seconds >= 86400 over Q.
* The isoformat timestamp column primeiro_email_enviado_em is stored parsed,
  as Option Q: none models a NULL or empty cell (falsy under cliente.get),
  some t a timestamp that datetime.fromisoformat reads back as t.
* Python float arithmetic on money fields is modelled exactly over Q.
* Exceptions are Except values; a try/except block is a match on them.
-/

/-- Characters of a string; all string parsing below works on this list so
that every definition is structurally recursive and kernel computable. -/
def chars (s : String) : List Char := s.data

/-- True when every character is an ASCII digit. -/
def allDigits (cs : List Char) : Bool := cs.all fun c => c.isDigit

/-- Numeric value of a digit string, most significant digit first. -/
def digitsToNat (cs : List Char) : Nat :=
  cs.foldl (fun acc c => acc * 10 + (c.toNat - 48)) 0

/-- Split a character list at every dash, keeping empty groups, as the
strptime format string Y-m-d separates its three numeric fields. -/
def splitDash : List Char → List (List Char)
  | [] => [[]]
  | c :: cs =>
    let r := splitDash cs
    if c = '-' then [] :: r
    else
      match r with
      | [] => [[c]]
      | g :: gs => (c :: g) :: gs

/-- Gregorian leap-year rule used by the Python datetime module. -/
def isLeapYear (y : Nat) : Bool :=
  y % 4 == 0 && (y % 100 != 0 || y % 400 == 0)

/-- Number of days of month m in year y. -/
def daysInMonth (y m : Nat) : Nat :=
  if m = 2 then (if isLeapYear y then 29 else 28)
  else if m = 4 ∨ m = 6 ∨ m = 9 ∨ m = 11 then 30
  else 31

/-- datetime.strptime(s, Y-m-d).date(): exactly four year digits, one or two
month digits in 1..12, one or two day digits valid for that month and year
(years 1..9999, as the datetime module accepts).  none models the ValueError
the call raises on any other string. -/
def parseDataMergulho (s : String) : Option (Nat × Nat × Nat) :=
  match splitDash (chars s) with
  | [ys, ms, ds] =>
    if ys.length = 4 ∧ allDigits ys = true ∧
       1 ≤ ms.length ∧ ms.length ≤ 2 ∧ allDigits ms = true ∧
       1 ≤ ds.length ∧ ds.length ≤ 2 ∧ allDigits ds = true then
      let y := digitsToNat ys
      let m := digitsToNat ms
      let d := digitsToNat ds
      if 1 ≤ y ∧ 1 ≤ m ∧ m ≤ 12 ∧ 1 ≤ d ∧ d ≤ daysInMonth y m then
        some (y, m, d)
      else none
    else none
  | _ => none

/-- Day number of a civil date (days since 1970-01-01), the standard
era/year-of-era computation; subtracting two dates in Python yields a
timedelta whose .days field is the difference of these numbers. -/
def dayNumberOfCivil (y m d : Nat) : Int :=
  let yAdj : Nat := if m ≤ 2 then y - 1 else y
  let era : Nat := yAdj / 400
  let yoe : Nat := yAdj % 400
  let mp : Nat := if m ≤ 2 then m + 9 else m - 3
  let doy : Nat := (153 * mp + 2) / 5 + (d - 1)
  let doe : Nat := yoe * 365 + yoe / 4 - yoe / 100 + doy
  ((era * 146097 + doe : Nat) : Int) - 719468

/-- A row of the clientes table, fields as inserted by the index route. -/
structure Cliente where
  adicionado_por : String
  nome : String
  num_mergulho : Int
  email : String
  data_mergulho : String
  valor_fatura : ℚ
  desconto : ℚ
  iva : ℚ
  nacionalidade : String
  gastos : ℚ
  primeiro_email_enviado : Bool
  segundo_email_enviado : Bool
  email_manual_enviado : Bool
  primeiro_email_enviado_em : Option ℚ
  segundo_email_enviado_em : Option ℚ
  receita : ℚ
deriving Repr, DecidableEq

/-- The value datetime.now() observed at the start of a scheduler tick:
hoje.date() as a day number and hoje itself as epoch seconds. -/
structure Agora where
  dateDay : Int
  epochSec : ℚ
deriving Repr, DecidableEq

/-- Which feedback emails one tick attempted for one client row. -/
structure Attempt where
  first : Bool
  second : Bool
deriving Repr, DecidableEq

/-- Body of the per-client work of check_and_send_emails once the dive date
has parsed and dias_passados has been computed.  The guards read the row as
fetched (the dictionary cliente), not the freshly written values, exactly as
the Python loop does; the update calls fire only inside
if email_feedback(...) so a flag or timestamp is written only after the send
reports success. -/
def processParsed (sendOk : Cliente → String → Bool) (hoje : Agora)
    (c : Cliente) (diasPassados : Int) : Cliente × Attempt :=
  let attemptFirst : Bool :=
    decide (1 ≤ diasPassados) && !c.primeiro_email_enviado
  let c1 : Cliente :=
    if attemptFirst && sendOk c "primeiro" then
      { c with primeiro_email_enviado := true,
               primeiro_email_enviado_em := some hoje.epochSec }
    else c
  let attemptSecond : Bool :=
    decide (3 ≤ diasPassados) && !c.segundo_email_enviado &&
      (c.primeiro_email_enviado &&
        match c.primeiro_email_enviado_em with
        | some t => decide (24 * 3600 ≤ hoje.epochSec - t)
        | none => false)
  let c2 : Cliente :=
    if attemptSecond && sendOk c "segundo" then
      { c1 with segundo_email_enviado := true,
                segundo_email_enviado_em := some hoje.epochSec }
    else c1
  (c2, ⟨attemptFirst, attemptSecond⟩)

/-- The try-protected body executed for one client: strptime may raise, which
the error constructor records; every other step is the parsed body above. -/
def processClienteE (sendOk : Cliente → String → Bool) (hoje : Agora)
    (c : Cliente) : Except String (Cliente × Attempt) :=
  match parseDataMergulho c.data_mergulho with
  | none => .error "ValueError: time data does not match format Y-m-d"
  | some (y, m, d) =>
    .ok (processParsed sendOk hoje c (hoje.dateDay - dayNumberOfCivil y m d))

/-- Effect of one tick on one client row: the except-continue arm of the loop
leaves the row unchanged and attempts nothing. -/
def processCliente (sendOk : Cliente → String → Bool) (hoje : Agora)
    (c : Cliente) : Cliente × Attempt :=
  match processClienteE sendOk hoje c with
  | .ok r => r
  | .error _ => (c, ⟨false, false⟩)

/-- check_and_send_emails over the fetched client list: the loop body runs
under a per-client try whose except arm logs and continues, so each row is
processed independently and a failure on one row never stops the rest. -/
def check_and_send_emails (sendOk : Cliente → String → Bool) (hoje : Agora)
    (clientes : List Cliente) : List (Cliente × Attempt) :=
  clientes.foldl (fun acc cliente =>
    match processClienteE sendOk hoje cliente with
    | .ok r => acc ++ [r]
    | .error _ => acc ++ [(cliente, ⟨false, false⟩)]) []

/-- The whole job under its outer try: a failure of the clientes fetch
itself falls into the top-level except arm, which only logs, so the job
still returns normally having processed nothing. -/
def check_and_send_emails_top (sendOk : Cliente → String → Bool)
    (hoje : Agora) (fetch : Except String (List Cliente)) :
    List (Cliente × Attempt) :=
  match fetch with
  | .error _ => []
  | .ok clientes => check_and_send_emails sendOk hoje clientes

/-- A sequence of scheduler ticks applied to one client row: each tick has
its own send oracle and its own now, and reads the row the previous tick
left behind. -/
def processRuns (steps : List ((Cliente → String → Bool) × Agora))
    (c : Cliente) : Cliente × List Attempt :=
  match steps with
  | [] => (c, [])
  | s :: rest =>
    let r := processCliente s.1 s.2 c
    let rr := processRuns rest r.1
    (rr.1, r.2 :: rr.2)

/-- Per-host state seen by _try_start_scheduler_with_lock: whether the file
email_scheduler.lock exists in the temp directory, and whether the global
scheduler variable has been set to a started BackgroundScheduler. -/
structure SchedState where
  lockExists : Bool
  schedulerStarted : Bool
deriving Repr, DecidableEq

/-- _try_start_scheduler_with_lock.  os.open with O_CREAT|O_EXCL either
raises FileExistsError (lock held: return False, nothing changed) or
atomically creates the lock file; startOk tells whether constructing and
starting the BackgroundScheduler succeeds, its failure being caught by the
generic except arm which also returns False with the global left unset. -/
def tryStartSchedulerWithLock (s : SchedState) (startOk : Bool) :
    SchedState × Bool :=
  if s.lockExists then
    (s, false)
  else
    let s1 : SchedState := { s with lockExists := true }
    if startOk then
      ({ s1 with schedulerStarted := true }, true)
    else
      (s1, false)

/-- A sequence of processes on one host each calling
_try_start_scheduler_with_lock once against the shared lock file. -/
def runTryStarts (s : SchedState) (oks : List Bool) :
    SchedState × List Bool :=
  match oks with
  | [] => (s, [])
  | ok :: rest =>
    let r := tryStartSchedulerWithLock s ok
    let rr := runTryStarts r.1 rest
    (rr.1, r.2 :: rr.2)

/-- A row of the usuarios table. -/
structure Usuario where
  username : String
  password_hash : String
  is_admin : Bool
deriving Repr, DecidableEq

/-- Python str.strip(): whitespace removed from both ends. -/
def pyStrip (s : String) : String :=
  String.mk (((chars s).dropWhile Char.isWhitespace).reverse.dropWhile
    Char.isWhitespace).reverse

/-- The create_user branch of manage_users: the submitted password string is
assigned to password_hash unmodified (password_hash = password) and the row
is inserted; is_admin is bool(int(form.get(is_admin, 0))). -/
def manage_users_create (db : List Usuario) (username password : String)
    (isAdminField : Int) : List Usuario :=
  db ++ [{ username := username, password_hash := password,
           is_admin := decide (isAdminField ≠ 0) }]

/-- The login route on POST: both fields must be non-empty after the
username is stripped, the usuarios rows with that username are fetched, and
the session is opened exactly when the first fetched row stores the
submitted password. -/
def login (db : List Usuario) (formUsername formPassword : String) : Bool :=
  let entered_username := pyStrip formUsername
  if entered_username = "" ∨ formPassword = "" then false
  else
    match db.filter (fun u => decide (u.username = entered_username)) with
    | [] => false
    | u :: _ => decide (u.password_hash = formPassword)

/-- The claim reads: login succeeds exactly when some usuarios row has the
submitted username and its stored password_hash string-equals the submitted
password.  Stated from the claim words, to compare with the code above. -/
def loginClaimSpec (db : List Usuario) (formUsername formPassword : String) :
    Prop :=
  ∃ u ∈ db, u.username = formUsername ∧ u.password_hash = formPassword

/-- Parsed registration form of the index route.  email, nome, num_mergulho
and data_mergulho are the fields the handler reads without a fallback; the
numeric fields are Option values, none meaning float() would raise on (or
miss) the submitted text, which the handler turns into its defaults. -/
structure RegistForm where
  email : String
  nome : String
  num_mergulho : Int
  data_mergulho : String
  valor_fatura : Option ℚ
  desconto : Option ℚ
  iva : Option ℚ
  nacionalidade : Option String
  gastos : Option ℚ
deriving Repr, DecidableEq

/-- The client row the index route inserts: desconto, valor_fatura default
to 0.0 on a parse failure, gastos is read only for an admin session, iva
defaults to 22 before the division by 100 (and to 0.22 on a parse failure,
the same value), the three sent flags start False, the timestamp columns
start empty, and receita is computed server side as valor_fatura - gastos. -/
def novoCliente (isAdmin : Bool) (username : String) (form : RegistForm) :
    Cliente :=
  let desconto := form.desconto.getD 0
  let gastos : ℚ := if isAdmin then form.gastos.getD 0 else 0
  let valor_fatura := form.valor_fatura.getD 0
  let iva_value : ℚ := (form.iva.getD 22) / 100
  let receita_value := valor_fatura - gastos
  { adicionado_por := username
    nome := form.nome
    num_mergulho := form.num_mergulho
    email := form.email
    data_mergulho := form.data_mergulho
    valor_fatura := valor_fatura
    desconto := desconto
    iva := iva_value
    nacionalidade := form.nacionalidade.getD "português"
    gastos := gastos
    primeiro_email_enviado := false
    segundo_email_enviado := false
    email_manual_enviado := false
    primeiro_email_enviado_em := none
    segundo_email_enviado_em := none
    receita := receita_value }

/-- The POST branch of the index route: fetch the clientes rows with the
submitted email; if any exists, insert nothing and set the mensagem shown to
the user; otherwise insert exactly the one new row and redirect (mensagem
none).  The check and the insert are separate table calls, in that order. -/
def indexPost (isAdmin : Bool) (username : String) (db : List Cliente)
    (form : RegistForm) : List Cliente × Option String :=
  if (db.filter fun c => decide (c.email = form.email)) ≠ [] then
    (db, some ("Email " ++ form.email ++ " already registered"))
  else
    (db ++ [novoCliente isAdmin username form], none)

/-- The update-gastos route body after the admin and JSON checks: an empty
email is rejected; otherwise the valor_fatura of the first fetched row with
that email is read, receita = valor_fatura - gastos is computed, and gastos
and receita are written to every row with that email.  The Bool reports
success. -/
def update_gastos (db : List Cliente) (email : String) (gastos : ℚ) :
    List Cliente × Bool :=
  if email = "" then (db, false)
  else
    match db.filter (fun c => decide (c.email = email)) with
    | [] => (db, false)
    | c0 :: _ =>
      let receita := c0.valor_fatura - gastos
      (db.map (fun c =>
        if decide (c.email = email) then
          { c with gastos := gastos, receita := receita }
        else c), true)

/-- The marcar-email-manual route: fetch the rows with the given email; if
none, flash that the client was not found; if the first row has not been
manually emailed, set email_manual_enviado on every row with that email and
flash success; otherwise change nothing and flash that it was already
marked. -/
def marcar_email_manual (db : List Cliente) (email : String) :
    List Cliente × String :=
  match db.filter (fun c => decide (c.email = email)) with
  | [] => (db, "Cliente não encontrado.")
  | c :: _ =>
    if c.email_manual_enviado = false then
      (db.map (fun x =>
        if decide (x.email = email) then { x with email_manual_enviado := true }
        else x),
       "Email marcado como enviado com sucesso.")
    else
      (db, "O email já estava marcado como enviado.")

/-- A worksheet cell as openpyxl exposes it: the stringified stored value
str(cell.value), the number format, and the alignment pair.  Cell values are
carried already stringified because the export only ever reads them through
len(str(cell.value)). -/
structure Cell where
  val : String
  numberFormat : String
  horizontal : Option String
  vertical : Option String
deriving Repr, DecidableEq

/-- A cell as first written by DataFrame.to_excel: default format General,
no alignment set. -/
def mkCell (v : String) : Cell :=
  { val := v, numberFormat := "General", horizontal := none, vertical := none }

/-- Python str.capitalize() restricted to ASCII letters: first character
upper-cased, the rest lower-cased. -/
def pyCapitalize (s : String) : String :=
  match chars s with
  | [] => ""
  | c :: cs => String.mk (c.toUpper :: cs.map Char.toLower)

/-- Sim / Não rendering of a boolean column. -/
def simNao (b : Bool) : String := if b then "Sim" else "Não"

/-- Fixed rendering of a rational cell value standing for the Python float
repr; the export theorems depend only on the values being some string. -/
def ratStr (q : ℚ) : String :=
  if q.den = 1 then toString q.num
  else toString q.num ++ "/" ++ toString q.den

/-- Two-digit zero padding for strftime fields m and d. -/
def pad2 (n : Nat) : String :=
  if n < 10 then "0" ++ toString n else toString n

/-- Four-digit zero padding for the strftime field Y. -/
def pad4 (n : Nat) : String :=
  if n < 10 then "000" ++ toString n
  else if n < 100 then "00" ++ toString n
  else if n < 1000 then "0" ++ toString n
  else toString n

/-- strftime Y/m/d of a parsed dive date. -/
def fmtDateSlash (y m d : Nat) : String :=
  pad4 y ++ "/" ++ pad2 m ++ "/" ++ pad2 d

/-- The 15 column headers of the clientes_data dictionary, in insertion
order (columns 1 through 15 of the sheet). -/
def exportHeaders : List String :=
  ["Adicionado por", "Nome", "Email", "Nº Mergulhos", "Data Mergulho",
   "Nacionalidade", "1º Email Enviado", "2º Email Enviado", "Email Manual",
   "Desconto (%)", "Valor(€)", "Valor com Iva(€)", "Valor de IVA(€)",
   "Gastos(€)", "Receita(€)"]

/-- One clientes_data row: strptime on data_mergulho may raise (failing the
whole export), the date is reformatted with slashes, the nationality is
capitalized, the flags are rendered Sim or Não, and the two IVA columns are
computed from valor_fatura and iva. -/
def rowOfCliente (c : Cliente) : Except String (List String) :=
  match parseDataMergulho c.data_mergulho with
  | none => .error "ValueError: time data does not match format Y-m-d"
  | some (y, m, d) =>
    .ok [c.adicionado_por, c.nome, c.email, toString c.num_mergulho,
         fmtDateSlash y m d, pyCapitalize c.nacionalidade,
         simNao c.primeiro_email_enviado, simNao c.segundo_email_enviado,
         simNao c.email_manual_enviado, ratStr c.desconto,
         ratStr c.valor_fatura, ratStr (c.valor_fatura * (1 + c.iva)),
         ratStr (c.valor_fatura * c.iva), ratStr c.gastos, ratStr c.receita]

/-- Indexed map used to walk the worksheet grid with explicit row and column
numbers. -/
def mapWithIdx (f : Nat → α → β) : Nat → List α → List β
  | _, [] => []
  | i, a :: as => f i a :: mapWithIdx f (i + 1) as

/-- The currency number format applied by the export loop. -/
def currencyFormat : String := "#,##0.00\" €\""

/-- worksheet.iter_rows(min_row=2, min_col=11, max_col=15): every cell in a
row at 1-based index at least 2 and a column between 11 and 15 gets the
currency number format.  Indices here are 0-based, so rows at least 1 and
columns 10 through 14. -/
def applyCurrencyFormat (rows : List (List Cell)) : List (List Cell) :=
  mapWithIdx (fun i row =>
    if 1 ≤ i then
      mapWithIdx (fun j cell =>
        if 10 ≤ j ∧ j ≤ 14 then { cell with numberFormat := currencyFormat }
        else cell) 0 row
    else row) 0 rows

/-- Alignment(horizontal=right, vertical=center) assigned to one cell by the
final loop. -/
def alignCell (cell : Cell) : Cell :=
  { cell with horizontal := some "right", vertical := some "center" }

/-- The final loop centering cells: every cell of every row gets the
alignment. -/
def applyAlignmentAll (rows : List (List Cell)) : List (List Cell) :=
  rows.map (fun row => row.map alignCell)

/-- The cells of 0-based column j, top to bottom, as worksheet.columns
yields them. -/
def columnCells (rows : List (List Cell)) (j : Nat) : List Cell :=
  rows.filterMap (fun r => r.get? j)

/-- The width loop body: max_length starts at 0 and is raised whenever
len(str(cell.value)) exceeds it. -/
def colMaxLenLoop (cells : List Cell) : Nat :=
  cells.foldl (fun maxLength cell =>
    if cell.val.length > maxLength then cell.val.length else maxLength) 0

/-- Number of columns of the written sheet: the length of its first row
(15 when any client exists, 0 for the empty DataFrame). -/
def numColsOf (rows : List (List Cell)) : Nat :=
  (rows.head?.map List.length).getD 0

/-- The workbook the export route builds and sends. -/
structure Worksheet where
  rows : List (List Cell)
  widths : List Nat
deriving Repr, DecidableEq

/-- The grid DataFrame.to_excel writes: a header row followed by one row per
client (no rows at all for the empty frame, which has no columns). -/
def buildRows (dataRows : List (List String)) : List (List Cell) :=
  match dataRows with
  | [] => []
  | _ :: _ => (exportHeaders.map mkCell) :: dataRows.map (fun r => r.map mkCell)

/-- exportar_emails: build clientes_data (any strptime failure aborts the
export into the route's except arm), write the header row and one row per
client, apply the currency format to rows at least 2 of columns 11 through
15, set every column width to 5 more than the longest stringified value in
that column, then right-center every cell. -/
def exportar_emails (clientes : List Cliente) : Except String Worksheet :=
  match clientes.mapM rowOfCliente with
  | .error e => .error e
  | .ok dataRows =>
    let rows1 := applyCurrencyFormat (buildRows dataRows)
    let widths := (List.range (numColsOf rows1)).map
      (fun j => colMaxLenLoop (columnCells rows1 j) + 5)
    .ok { rows := applyAlignmentAll rows1, widths := widths }

/-! ### Demonstration values used by the witnesses -/

/-- A send oracle under which every SMTP send succeeds. -/
def sendOkDemo : Cliente → String → Bool := fun _ _ => true

/-- A concrete now: 2024-05-13 as a day number, with an epoch-second value. -/
def agoraDemo : Agora := { dateDay := 19856, epochSec := 1715000000 }

/-- A concrete client row as the registration form inserts it. -/
def clienteDemo : Cliente :=
  { adicionado_por := "ana", nome := "Bruno", num_mergulho := 3,
    email := "bruno@mail.pt", data_mergulho := "2024-05-06",
    valor_fatura := 0, desconto := 0, iva := 0, nacionalidade := "português",
    gastos := 0, primeiro_email_enviado := false,
    segundo_email_enviado := false, email_manual_enviado := false,
    primeiro_email_enviado_em := none, segundo_email_enviado_em := none,
    receita := 0 }

/-- The client row with both scheduled-email flags already set. -/
def clienteDemoFlags : Cliente :=
  { clienteDemo with primeiro_email_enviado := true,
                     segundo_email_enviado := true }

/-- A client row whose dive date string strptime rejects. -/
def clienteBadDemo : Cliente := { clienteDemo with data_mergulho := "hoje" }


/-- A concrete registration form whose email collides with the demonstration
client. -/
def formDemo : RegistForm :=
  { email := "bruno@mail.pt", nome := "Bruno", num_mergulho := 3,
    data_mergulho := "2024-05-06", valor_fatura := none, desconto := none,
    iva := none, nacionalidade := none, gastos := none }

/-- A concrete registration form with a fresh email. -/
def formDemoNovo : RegistForm :=
  { formDemo with email := "clara@mail.pt", nome := "Clara" }

/-- The worksheet the export builds for the one-row demonstration table. -/
def wsDemo : Worksheet :=
  match exportar_emails [clienteDemo] with
  | .ok w => w
  | .error _ => { rows := [], widths := [] }

/-! ### Helper lemmas about the scheduler tick -/

theorem foldl_append_map (g : α → β) (l : List α) (acc : List β) :
    l.foldl (fun a c => a ++ [g c]) acc = acc ++ l.map g := by
  induction l generalizing acc with
  | nil => simp
  | cons x xs ih => simp [List.foldl_cons, ih]

theorem check_and_send_emails_eq_map (s : Cliente → String → Bool) (h : Agora)
    (l : List Cliente) :
    check_and_send_emails s h l = l.map (processCliente s h) := by
  unfold check_and_send_emails
  have hb : (fun (acc : List (Cliente × Attempt)) cliente =>
      match processClienteE s h cliente with
      | .ok r => acc ++ [r]
      | .error _ => acc ++ [(cliente, ⟨false, false⟩)])
      = fun acc cliente => acc ++ [processCliente s h cliente] := by
    funext acc cliente
    cases hp : processClienteE s h cliente <;> simp [processCliente, hp]
  rw [hb]
  simpa using foldl_append_map (processCliente s h) l []

theorem processParsed_first_iff (s : Cliente → String → Bool) (h : Agora)
    (c : Cliente) (dias : Int) :
    (processParsed s h c dias).2.first = true ↔
      (1 ≤ dias ∧ c.primeiro_email_enviado = false) := by
  simp [processParsed, Bool.and_eq_true, Bool.not_eq_true']

theorem processParsed_second_iff (s : Cliente → String → Bool) (h : Agora)
    (c : Cliente) (dias : Int) :
    (processParsed s h c dias).2.second = true ↔
      (3 ≤ dias ∧ c.segundo_email_enviado = false ∧
       c.primeiro_email_enviado = true ∧
       ∃ t, c.primeiro_email_enviado_em = some t ∧
            24 * 3600 ≤ h.epochSec - t) := by
  cases hem : c.primeiro_email_enviado_em with
  | none => simp [processParsed, hem, Bool.and_eq_true, Bool.not_eq_true']
  | some t =>
      simp [processParsed, hem, Bool.and_eq_true, Bool.not_eq_true', and_assoc]

theorem processParsed_first_flag (s : Cliente → String → Bool) (h : Agora)
    (c : Cliente) (dias : Int) :
    (processParsed s h c dias).1.primeiro_email_enviado = true →
      c.primeiro_email_enviado = true ∨
      (s c "primeiro" = true ∧
       (processParsed s h c dias).1.primeiro_email_enviado_em
           = some h.epochSec) := by
  simp only [processParsed]
  cases hem : c.primeiro_email_enviado_em <;>
    · simp only [hem]
      split <;> split <;> simp_all

theorem processParsed_second_flag (s : Cliente → String → Bool) (h : Agora)
    (c : Cliente) (dias : Int) :
    (processParsed s h c dias).1.segundo_email_enviado = true →
      c.segundo_email_enviado = true ∨
      (s c "segundo" = true ∧
       (processParsed s h c dias).1.segundo_email_enviado_em
           = some h.epochSec) := by
  simp only [processParsed]
  cases hem : c.primeiro_email_enviado_em <;>
    · simp only [hem]
      split <;> split <;> simp_all

theorem processParsed_first_mono (s : Cliente → String → Bool) (h : Agora)
    (c : Cliente) (dias : Int) (hset : c.primeiro_email_enviado = true) :
    (processParsed s h c dias).2.first = false ∧
    (processParsed s h c dias).1.primeiro_email_enviado = true := by
  simp only [processParsed]
  cases hem : c.primeiro_email_enviado_em <;>
    · simp only [hem]
      split <;> split <;> simp_all

theorem processParsed_second_mono (s : Cliente → String → Bool) (h : Agora)
    (c : Cliente) (dias : Int) (hset : c.segundo_email_enviado = true) :
    (processParsed s h c dias).2.second = false ∧
    (processParsed s h c dias).1.segundo_email_enviado = true := by
  simp only [processParsed]
  cases hem : c.primeiro_email_enviado_em <;>
    · simp only [hem]
      split <;> split <;> simp_all

theorem processCliente_of_parse (s : Cliente → String → Bool) (h : Agora)
    (c : Cliente) (y m d : Nat)
    (hp : parseDataMergulho c.data_mergulho = some (y, m, d)) :
    processCliente s h c
      = processParsed s h c (h.dateDay - dayNumberOfCivil y m d) := by
  simp [processCliente, processClienteE, hp]

theorem processCliente_first_mono (s : Cliente → String → Bool) (h : Agora)
    (c : Cliente) (hset : c.primeiro_email_enviado = true) :
    (processCliente s h c).2.first = false ∧
    (processCliente s h c).1.primeiro_email_enviado = true := by
  cases hp : parseDataMergulho c.data_mergulho with
  | none => simp [processCliente, processClienteE, hp, hset]
  | some p =>
      obtain ⟨y, m, d⟩ := p
      rw [processCliente_of_parse s h c y m d hp]
      exact processParsed_first_mono s h c _ hset

theorem processCliente_second_mono (s : Cliente → String → Bool) (h : Agora)
    (c : Cliente) (hset : c.segundo_email_enviado = true) :
    (processCliente s h c).2.second = false ∧
    (processCliente s h c).1.segundo_email_enviado = true := by
  cases hp : parseDataMergulho c.data_mergulho with
  | none => simp [processCliente, processClienteE, hp, hset]
  | some p =>
      obtain ⟨y, m, d⟩ := p
      rw [processCliente_of_parse s h c y m d hp]
      exact processParsed_second_mono s h c _ hset

/-! ### The claims -/

/-- Claim C1: a run of check_and_send_emails processes every fetched row
independently; for a row whose data_mergulho parses as a date, the first
feedback email is attempted exactly when at least 1 day has elapsed from the
dive date to today and primeiro_email_enviado is false, the second exactly
when at least 3 days have elapsed, segundo_email_enviado is false,
primeiro_email_enviado is true with a recorded primeiro_email_enviado_em
timestamp, and at least 24 hours (86400 seconds) have passed since that
timestamp; and a sent flag becomes true only because the send reported
success, in which case the matching sent-at timestamp is written with it. -/
theorem claim_C1 (sendOk : Cliente → String → Bool) (hoje : Agora)
    (clientes : List Cliente) (c : Cliente) (y m d : Nat)
    (hparse : parseDataMergulho c.data_mergulho = some (y, m, d)) :
    check_and_send_emails sendOk hoje clientes
        = clientes.map (processCliente sendOk hoje) ∧
    ((processCliente sendOk hoje c).2.first = true ↔
      (1 ≤ hoje.dateDay - dayNumberOfCivil y m d ∧
       c.primeiro_email_enviado = false)) ∧
    ((processCliente sendOk hoje c).2.second = true ↔
      (3 ≤ hoje.dateDay - dayNumberOfCivil y m d ∧
       c.segundo_email_enviado = false ∧ c.primeiro_email_enviado = true ∧
       ∃ t, c.primeiro_email_enviado_em = some t ∧
            24 * 3600 ≤ hoje.epochSec - t)) ∧
    ((processCliente sendOk hoje c).1.primeiro_email_enviado = true →
      c.primeiro_email_enviado = true ∨
      (sendOk c "primeiro" = true ∧
       (processCliente sendOk hoje c).1.primeiro_email_enviado_em
           = some hoje.epochSec)) ∧
    ((processCliente sendOk hoje c).1.segundo_email_enviado = true →
      c.segundo_email_enviado = true ∨
      (sendOk c "segundo" = true ∧
       (processCliente sendOk hoje c).1.segundo_email_enviado_em
           = some hoje.epochSec)) := by
  rw [processCliente_of_parse sendOk hoje c y m d hparse]
  exact ⟨check_and_send_emails_eq_map sendOk hoje clientes,
    processParsed_first_iff _ _ _ _,
    processParsed_second_iff _ _ _ _,
    processParsed_first_flag _ _ _ _,
    processParsed_second_flag _ _ _ _⟩

/-- Claim C1 witness: the dive date of the demonstration client parses, and
the first-email threshold characterization holds for it under a concrete
tick. -/
theorem claim_C1_witness :
    parseDataMergulho clienteDemo.data_mergulho = some (2024, 5, 6) ∧
    ((processCliente sendOkDemo agoraDemo clienteDemo).2.first = true ↔
      (1 ≤ agoraDemo.dateDay - dayNumberOfCivil 2024 5 6 ∧
       clienteDemo.primeiro_email_enviado = false)) :=
  ⟨by decide,
   (claim_C1 sendOkDemo agoraDemo [] clienteDemo 2024 5 6 (by decide)).2.1⟩

/-- Claim C2: once primeiro_email_enviado (respectively
segundo_email_enviado) is true on a row, no sequence of scheduler ticks ever
attempts another first (respectively second) feedback email for it, and the
flag stays true, so the booleans make the scheduled sending idempotent per
row. -/
theorem claim_C2 (steps : List ((Cliente → String → Bool) × Agora))
    (c : Cliente) :
    (c.primeiro_email_enviado = true →
       ((processRuns steps c).2.all fun a => !a.first) = true ∧
       (processRuns steps c).1.primeiro_email_enviado = true) ∧
    (c.segundo_email_enviado = true →
       ((processRuns steps c).2.all fun a => !a.second) = true ∧
       (processRuns steps c).1.segundo_email_enviado = true) := by
  induction steps generalizing c with
  | nil => simp [processRuns]
  | cons st rest ih =>
      constructor
      · intro hset
        have h1 := processCliente_first_mono st.1 st.2 c hset
        have ih1 := (ih (processCliente st.1 st.2 c).1).1 h1.2
        simp [processRuns, h1.1, ih1.1, ih1.2]
      · intro hset
        have h1 := processCliente_second_mono st.1 st.2 c hset
        have ih1 := (ih (processCliente st.1 st.2 c).1).2 h1.2
        simp [processRuns, h1.1, ih1.1, ih1.2]

/-- Claim C2 witness: a concrete tick sequence applied to a row with both
flags set attempts neither email. -/
theorem claim_C2_witness :
    ((processRuns [(sendOkDemo, agoraDemo)] clienteDemoFlags).2.all
        fun a => !a.first) = true ∧
    ((processRuns [(sendOkDemo, agoraDemo)] clienteDemoFlags).2.all
        fun a => !a.second) = true :=
  ⟨((claim_C2 [(sendOkDemo, agoraDemo)] clienteDemoFlags).1 rfl).1,
   ((claim_C2 [(sendOkDemo, agoraDemo)] clienteDemoFlags).2 rfl).1⟩

/-- Claim C6: check_and_send_emails never propagates an exception: when the
per-client body raises on one client (here, a dive date strptime rejects),
that row is left unchanged with nothing attempted and every other row before
and after it is still processed exactly as it would have been on its own;
and a failure outside the loop (the fetch itself) falls to the top-level
handler, which returns normally having processed nothing. -/
theorem claim_C6 (sendOk : Cliente → String → Bool) (hoje : Agora)
    (xs ys : List Cliente) (c : Cliente) (e : String)
    (herr : processClienteE sendOk hoje c = .error e) :
    check_and_send_emails sendOk hoje (xs ++ c :: ys)
      = check_and_send_emails sendOk hoje xs
        ++ (c, ⟨false, false⟩) :: check_and_send_emails sendOk hoje ys ∧
    check_and_send_emails_top sendOk hoje (.error e) = [] := by
  have hc : processCliente sendOk hoje c = (c, ⟨false, false⟩) := by
    simp [processCliente, herr]
  constructor
  · simp [check_and_send_emails_eq_map, hc]
  · rfl

/-- Claim C6 witness: a run over a single unparseable row returns normally,
leaving the row untouched. -/
theorem claim_C6_witness :
    check_and_send_emails sendOkDemo agoraDemo ([] ++ clienteBadDemo :: [])
      = check_and_send_emails sendOkDemo agoraDemo []
        ++ (clienteBadDemo, ⟨false, false⟩)
          :: check_and_send_emails sendOkDemo agoraDemo [] ∧
    check_and_send_emails_top sendOkDemo agoraDemo
        (.error "ValueError: time data does not match format Y-m-d") = [] :=
  claim_C6 sendOkDemo agoraDemo [] [] clienteBadDemo
    "ValueError: time data does not match format Y-m-d" (by rfl)

theorem runTryStarts_locked (oks : List Bool) (s : SchedState)
    (hl : s.lockExists = true) :
    (runTryStarts s oks).2.count true = 0 := by
  induction oks generalizing s with
  | nil => simp [runTryStarts]
  | cons ok rest ih =>
      simp [runTryStarts, tryStartSchedulerWithLock, hl, List.count_cons]
      exact ih s hl

theorem runTryStarts_count_le_one (s : SchedState) (oks : List Bool) :
    (runTryStarts s oks).2.count true ≤ 1 := by
  cases hl : s.lockExists with
  | true => simp [runTryStarts_locked oks s hl]
  | false =>
      cases oks with
      | nil => simp [runTryStarts]
      | cons ok rest =>
          cases ok
          · have h0 := runTryStarts_locked rest
              ⟨true, s.schedulerStarted⟩ rfl
            simp [runTryStarts, tryStartSchedulerWithLock, hl,
              List.count_cons, h0]
          · have h0 := runTryStarts_locked rest ⟨true, true⟩ rfl
            simp [runTryStarts, tryStartSchedulerWithLock, hl,
              List.count_cons, h0]

/-- Claim C5: _try_start_scheduler_with_lock returns True exactly when the
lock file did not exist (so it atomically created it) and the scheduler
start succeeded; the lock file exists afterwards in every case; the global
scheduler is newly set only in that returning-True case, so a call that
finds the lock file returns False and leaves the scheduler unchanged; and
over any sequence of calls against the shared lock, at most one returns
True, so at most one process per host starts the interval job. -/
theorem claim_C5 (s : SchedState) (startOk : Bool) (oks : List Bool) :
    (tryStartSchedulerWithLock s startOk).2 = (!s.lockExists && startOk) ∧
    (tryStartSchedulerWithLock s startOk).1.lockExists = true ∧
    (tryStartSchedulerWithLock s startOk).1.schedulerStarted
        = (s.schedulerStarted || (!s.lockExists && startOk)) ∧
    (s.lockExists = true →
        tryStartSchedulerWithLock s startOk = (s, false)) ∧
    (runTryStarts s oks).2.count true ≤ 1 := by
  obtain ⟨le, st⟩ := s
  refine ⟨?_, ?_, ?_, ?_, runTryStarts_count_le_one ⟨le, st⟩ oks⟩ <;>
    cases le <;> cases startOk <;> simp [tryStartSchedulerWithLock]

/-- Claim C5 witness: a call that finds the lock file held changes nothing
and returns False, and three competing starts from a clean host yield at
most one True. -/
theorem claim_C5_witness :
    tryStartSchedulerWithLock ⟨true, false⟩ true = (⟨true, false⟩, false) ∧
    (runTryStarts ⟨false, false⟩ [true, true, true]).2.count true ≤ 1 :=
  ⟨(claim_C5 ⟨true, false⟩ true []).2.2.2.1 rfl,
   (claim_C5 ⟨false, false⟩ true [true, true, true]).2.2.2.2⟩

/-- Claim C3 counterexample: with the one stored user (bob, empty password)
and the submitted pair (bob, empty string), some usuarios row has the
submitted username and its password_hash string-equals the submitted
password, yet login fails, because the handler rejects an empty password
field before ever querying the table.  So login does not succeed exactly
when such a row exists, refuting the claim as stated. -/
theorem claim_C3_counterexample :
    login [⟨"bob", "", false⟩] "bob" "" = false ∧
    loginClaimSpec [⟨"bob", "", false⟩] "bob" "" := by
  constructor
  · rfl
  · exact ⟨⟨"bob", "", false⟩, by simp, rfl, rfl⟩

/-- Claim C3, amended: user creation stores the submitted password string
unmodified in password_hash (no hashing), and login succeeds exactly when
the stripped username and the password are both non-empty and the first
usuarios row carrying the submitted (stripped) username stores exactly the
submitted password. -/
theorem claim_C3 (db : List Usuario) (fu fp : String) (un pw : String)
    (adm : Int) :
    ((manage_users_create db un pw adm).getLast?
        = some { username := un, password_hash := pw,
                 is_admin := decide (adm ≠ 0) }) ∧
    (login db fu fp = true ↔
      (pyStrip fu ≠ "" ∧ fp ≠ "" ∧
       ∃ u, (db.filter fun x => decide (x.username = pyStrip fu)).head?
              = some u
            ∧ u.password_hash = fp)) := by
  constructor
  · simp [manage_users_create]
  · simp only [login]
    by_cases h1 : pyStrip fu = ""
    · simp [h1]
    · by_cases h2 : fp = ""
      · simp [h1, h2]
      · rw [if_neg (by simp [h1, h2])]
        cases hf : db.filter (fun x => decide (x.username = pyStrip fu)) with
        | nil => simp [hf, h1, h2]
        | cons u rest => simp [hf, h1, h2]

/-- Claim C4: a POST registration whose email some clientes row already
carries inserts no row and reports the message Email, address, already
registered; with no such row it appends exactly one new client row bearing
that email. -/
theorem claim_C4 (isAdmin : Bool) (username : String) (db : List Cliente)
    (form : RegistForm) :
    if ∃ c ∈ db, c.email = form.email then
      indexPost isAdmin username db form
        = (db, some ("Email " ++ form.email ++ " already registered"))
    else
      ∃ r, indexPost isAdmin username db form = (db ++ [r], none)
           ∧ r.email = form.email := by
  by_cases h : ∃ c ∈ db, c.email = form.email
  · rw [if_pos h]
    have hne : (db.filter fun c => decide (c.email = form.email)) ≠ [] := by
      obtain ⟨c, hc, he⟩ := h
      intro hnil
      have hmem : c ∈ db.filter fun c => decide (c.email = form.email) := by
        simp [List.mem_filter, hc, he]
      rw [hnil] at hmem
      exact absurd hmem (List.not_mem_nil c)
    simp [indexPost, hne]
  · rw [if_neg h]
    have hnil : (db.filter fun c => decide (c.email = form.email)) = [] := by
      rw [List.filter_eq_nil_iff]
      intro a ha
      simp only [decide_eq_true_eq]
      exact fun he => h ⟨a, ha, he⟩
    exact ⟨novoCliente isAdmin username form, by simp [indexPost, hnil], rfl⟩

/-- Claim C4 witness: the characterization instantiated at a one-row table
and a colliding registration form. -/
theorem claim_C4_witness :
    if ∃ c ∈ [clienteDemo], c.email = formDemo.email then
      indexPost false "ana" [clienteDemo] formDemo
        = ([clienteDemo],
           some ("Email " ++ formDemo.email ++ " already registered"))
    else
      ∃ r, indexPost false "ana" [clienteDemo] formDemo
             = ([clienteDemo] ++ [r], none)
           ∧ r.email = formDemo.email :=
  claim_C4 false "ana" [clienteDemo] formDemo

/-- Claim C9: a registration with a fresh email appends one row whose three
email flags primeiro_email_enviado, segundo_email_enviado and
email_manual_enviado all start false, and the manual-send route then treats
the new client as not yet emailed: marking it flashes the success message
instead of the already-sent one. -/
theorem claim_C9 (isAdmin : Bool) (username : String) (db : List Cliente)
    (form : RegistForm)
    (hnew : (db.filter fun c => decide (c.email = form.email)) = []) :
    ∃ r, (indexPost isAdmin username db form).1 = db ++ [r] ∧
      r.primeiro_email_enviado = false ∧ r.segundo_email_enviado = false ∧
      r.email_manual_enviado = false ∧
      (marcar_email_manual (indexPost isAdmin username db form).1
          form.email).2
        = "Email marcado como enviado com sucesso." := by
  have h1 : (indexPost isAdmin username db form).1
      = db ++ [novoCliente isAdmin username form] := by
    simp [indexPost, hnew]
  refine ⟨novoCliente isAdmin username form, h1, rfl, rfl, rfl, ?_⟩
  rw [h1]
  unfold marcar_email_manual
  rw [List.filter_append, hnew]
  have he : (novoCliente isAdmin username form).email = form.email := rfl
  have hm : (novoCliente isAdmin username form).email_manual_enviado
      = false := rfl
  simp [List.filter_cons, he, hm]

/-- Claim C9 witness: registering a fresh client into the empty table. -/
theorem claim_C9_witness :
    ∃ r, (indexPost false "ana" [] formDemoNovo).1 = [] ++ [r] ∧
      r.primeiro_email_enviado = false ∧ r.segundo_email_enviado = false ∧
      r.email_manual_enviado = false ∧
      (marcar_email_manual (indexPost false "ana" [] formDemoNovo).1
          formDemoNovo.email).2
        = "Email marcado como enviado com sucesso." :=
  claim_C9 false "ana" [] formDemoNovo rfl

/-- Claim C10: marcar_email_manual is idempotent on the client store: for an
existing client a second run returns the store of the first run unchanged
and flashes that the email was already marked, because it observes
email_manual_enviado already true. -/
theorem claim_C10 (db : List Cliente) (email : String)
    (hexists : db.filter (fun c => decide (c.email = email)) ≠ []) :
    marcar_email_manual (marcar_email_manual db email).1 email
      = ((marcar_email_manual db email).1,
         "O email já estava marcado como enviado.") := by
  cases hf : db.filter (fun c => decide (c.email = email)) with
  | nil => exact absurd hf hexists
  | cons c rest =>
      have hcf : c ∈ db.filter (fun x => decide (x.email = email)) := by
        rw [hf]; exact List.Mem.head rest
      have hce : c.email = email := by
        have := List.of_mem_filter hcf
        simpa using this
      by_cases hm : c.email_manual_enviado = false
      · have h1 : (marcar_email_manual db email).1
            = db.map (fun x =>
                if decide (x.email = email) then
                  { x with email_manual_enviado := true } else x) := by
          unfold marcar_email_manual
          rw [hf]
          simp [hm]
        have hcomm : (db.map (fun x =>
              if decide (x.email = email) then
                { x with email_manual_enviado := true } else x)).filter
                  (fun c => decide (c.email = email))
            = (db.filter (fun c => decide (c.email = email))).map (fun x =>
                if decide (x.email = email) then
                  { x with email_manual_enviado := true } else x) := by
          rw [List.filter_map]
          have hfun : ((fun c : Cliente => decide (c.email = email)) ∘
              fun x : Cliente =>
                if decide (x.email = email) then
                  { x with email_manual_enviado := true } else x)
              = fun c : Cliente => decide (c.email = email) := by
            funext x
            by_cases hx : x.email = email <;> simp [Function.comp, hx]
          rw [hfun]
        rw [h1]
        unfold marcar_email_manual
        rw [hcomm, hf]
        simp [hce, hm]
      · have hm2 : c.email_manual_enviado = true := by
          simpa [Bool.not_eq_false] using hm
        have h1 : marcar_email_manual db email
            = (db, "O email já estava marcado como enviado.") := by
          unfold marcar_email_manual
          rw [hf]
          simp [hm2]
        rw [h1]
        unfold marcar_email_manual
        rw [hf]
        simp [hm2]

/-- Claim C10 witness: marking the demonstration client twice; the second
run changes nothing and reports the email as already marked. -/
theorem claim_C10_witness :
    marcar_email_manual
        (marcar_email_manual [clienteDemo] "bruno@mail.pt").1 "bruno@mail.pt"
      = ((marcar_email_manual [clienteDemo] "bruno@mail.pt").1,
         "O email já estava marcado como enviado.") :=
  claim_C10 [clienteDemo] "bruno@mail.pt" (by decide)

/-- Claim C8: both writers of receita keep receita = valor_fatura - gastos
on the row they write: a successful update-gastos call leaves every row with
the targeted email satisfying the invariant (emails being unique in the
table, as registration enforces), and the row a registration inserts
satisfies it on creation. -/
theorem claim_C8 (db : List Cliente) (email : String) (g : ℚ)
    (isAdmin : Bool) (username : String) (form : RegistForm)
    (hnodup : (db.map Cliente.email).Nodup) :
    ((update_gastos db email g).2 = true →
      ∀ r ∈ (update_gastos db email g).1, r.email = email →
        r.receita = r.valor_fatura - r.gastos) ∧
    (∀ r ∈ (indexPost isAdmin username db form).1, r ∉ db →
        r.receita = r.valor_fatura - r.gastos) := by
  constructor
  · intro hsucc r hr hre
    by_cases hemail : email = ""
    · simp [update_gastos, hemail] at hsucc
    · rcases hfc : db.filter (fun c => decide (c.email = email)) with
        _ | ⟨c0, rest⟩
      · simp [update_gastos, hemail, hfc] at hsucc
      · have hc0f : c0 ∈ db.filter (fun x => decide (x.email = email)) := by
          rw [hfc]; exact List.Mem.head rest
        have hc0e : c0.email = email := by
          simpa using List.of_mem_filter hc0f
        have hc0db : c0 ∈ db := List.mem_of_mem_filter hc0f
        have hr1 : (update_gastos db email g).1
            = db.map (fun c =>
                if decide (c.email = email) then
                  { c with gastos := g, receita := c0.valor_fatura - g }
                else c) := by
          unfold update_gastos
          rw [if_neg hemail, hfc]
        rw [hr1] at hr
        obtain ⟨c, hcdb, hcr⟩ := List.mem_map.1 hr
        by_cases hcm : c.email = email
        · rw [if_pos (by simpa using hcm)] at hcr
          have hcc0 : c = c0 :=
            List.inj_on_of_nodup_map hnodup hcdb hc0db (by rw [hcm, hc0e])
          subst hcc0
          rw [← hcr]
        · rw [if_neg (by simpa using hcm)] at hcr
          rw [← hcr] at hre
          exact absurd hre hcm
  · intro r hr hrdb
    by_cases hdup : (db.filter fun c => decide (c.email = form.email)) ≠ []
    · simp only [indexPost, if_pos hdup] at hr
      exact absurd hr hrdb
    · simp only [indexPost, if_neg hdup] at hr
      rcases List.mem_append.1 hr with hin | hnovo
      · exact absurd hin hrdb
      · have : r = novoCliente isAdmin username form := by
          simpa using hnovo
        subst this
        rfl

/-- Claim C8 witness: the invariant instantiated at a one-row table, an
update of its gastos, and a fresh registration. -/
theorem claim_C8_witness :
    ((update_gastos [clienteDemo] "bruno@mail.pt" 7).2 = true →
      ∀ r ∈ (update_gastos [clienteDemo] "bruno@mail.pt" 7).1,
        r.email = "bruno@mail.pt" →
        r.receita = r.valor_fatura - r.gastos) ∧
    (∀ r ∈ (indexPost false "ana" [clienteDemo] formDemoNovo).1,
        r ∉ [clienteDemo] →
        r.receita = r.valor_fatura - r.gastos) :=
  claim_C8 [clienteDemo] "bruno@mail.pt" 7 false "ana" formDemoNovo
    (by decide)

theorem mapWithIdx_get? (f : Nat → α → β) (l : List α) (i k : Nat) :
    (mapWithIdx f i l).get? k = (l.get? k).map (f (i + k)) := by
  induction l generalizing i k with
  | nil => cases k <;> rfl
  | cons a as ih =>
      cases k with
      | zero => rfl
      | succ k =>
          have hstep : mapWithIdx f i (a :: as)
              = f i a :: mapWithIdx f (i + 1) as := rfl
          rw [hstep, List.get?_cons_succ, List.get?_cons_succ, ih]
          have harith : i + 1 + k = i + (k + 1) := by omega
          rw [harith]

theorem colMaxLenLoop_eq_foldr (cells : List Cell) :
    colMaxLenLoop cells
      = (cells.map (fun cell => cell.val.length)).foldr Nat.max 0 := by
  suffices h : ∀ a, cells.foldl
      (fun m c => if c.val.length > m then c.val.length else m) a
      = Nat.max a ((cells.map (fun cell => cell.val.length)).foldr
          Nat.max 0) by
    simpa [colMaxLenLoop] using h 0
  induction cells with
  | nil => intro a; simp
  | cons c cs ih =>
      intro a
      simp only [List.foldl_cons, List.map_cons, List.foldr_cons]
      rw [ih]
      have hmax : (if c.val.length > a then c.val.length else a)
          = Nat.max a c.val.length := by
        by_cases hlt : c.val.length > a
        · simp [hlt, Nat.max_eq_right (Nat.le_of_lt hlt)]
        · have hle : c.val.length ≤ a := Nat.le_of_not_lt hlt
          simp [hlt, Nat.max_eq_left hle]
      rw [hmax]
      exact Nat.max_assoc a c.val.length _

theorem format_after_align (rows : List (List Cell)) (i j : Nat)
    (cell : Cell) (h1 : 1 ≤ i) (hj1 : 10 ≤ j) (hj2 : j ≤ 14)
    (hcell : (((applyAlignmentAll (applyCurrencyFormat rows)).get? i).bind
        fun r => r.get? j) = some cell) :
    cell.numberFormat = currencyFormat := by
  unfold applyAlignmentAll applyCurrencyFormat at hcell
  rw [List.get?_map, mapWithIdx_get?] at hcell
  cases hrow : rows.get? i with
  | none => rw [hrow] at hcell; simp at hcell
  | some row =>
      rw [hrow] at hcell
      simp only [Option.map_some', Option.some_bind] at hcell
      rw [if_pos (by omega : 1 ≤ 0 + i)] at hcell
      rw [List.get?_map, mapWithIdx_get?] at hcell
      cases hc0 : row.get? j with
      | none => rw [hc0] at hcell; simp at hcell
      | some c0 =>
          rw [hc0] at hcell
          simp only [Option.map_some'] at hcell
          rw [if_pos (⟨by omega, by omega⟩ : 10 ≤ 0 + j ∧ 0 + j ≤ 14)]
            at hcell
          injection hcell with hc
          rw [← hc]
          rfl

theorem columnCells_align (rows : List (List Cell)) (j : Nat) :
    columnCells (applyAlignmentAll rows) j
      = (columnCells rows j).map alignCell := by
  unfold columnCells applyAlignmentAll
  rw [List.filterMap_map, List.map_filterMap]
  have hfun : ((fun r : List Cell => r.get? j) ∘ fun row => row.map alignCell)
      = fun r : List Cell => (r.get? j).map alignCell := by
    funext r
    simp [Function.comp, List.get?_map]
  rw [hfun]

theorem widths_after_align (rows : List (List Cell)) :
    (List.range (numColsOf rows)).map
        (fun j => colMaxLenLoop (columnCells rows j) + 5)
      = (List.range (numColsOf (applyAlignmentAll rows))).map
        (fun j => ((columnCells (applyAlignmentAll rows) j).map
            (fun cell => cell.val.length)).foldr Nat.max 0 + 5) := by
  have hnum : numColsOf (applyAlignmentAll rows) = numColsOf rows := by
    unfold numColsOf applyAlignmentAll
    cases rows <;> simp
  rw [hnum]
  have hfun : (fun j => colMaxLenLoop (columnCells rows j) + 5)
      = fun j => ((columnCells (applyAlignmentAll rows) j).map
          (fun cell => cell.val.length)).foldr Nat.max 0 + 5 := by
    funext j
    rw [columnCells_align, colMaxLenLoop_eq_foldr, List.map_map]
    have hlen : ((fun cell : Cell => cell.val.length) ∘ alignCell)
        = fun cell : Cell => cell.val.length := by
      funext cell
      rfl
    rw [hlen]
  rw [hfun]

/-- Claim C7: in a workbook the export produces, every data cell of the
sheet (0-based row index at least 1, so sheet rows at least 2) in 0-based
columns 10 through 14 (sheet columns 11 through 15) carries the currency
number format, and the width of every column is 5 more than the length of
the longest stringified cell value appearing in that column (header row
included, as the width loop iterates all cells). -/
theorem claim_C7 (clientes : List Cliente) (ws : Worksheet)
    (h : exportar_emails clientes = .ok ws) :
    (∀ i j cell, ((ws.rows.get? i).bind fun r => r.get? j) = some cell →
        1 ≤ i → 10 ≤ j → j ≤ 14 → cell.numberFormat = currencyFormat) ∧
    ws.widths = (List.range (numColsOf ws.rows)).map
        (fun j => ((columnCells ws.rows j).map
            (fun cell => cell.val.length)).foldr Nat.max 0 + 5) := by
  cases hmap : clientes.mapM rowOfCliente with
  | error e =>
      rw [exportar_emails.eq_def, hmap] at h
      exact absurd h (by simp)
  | ok dataRows =>
      rw [exportar_emails.eq_def, hmap] at h
      simp only [Except.ok.injEq] at h
      subst h
      constructor
      · intro i j cell hcell h1 hj1 hj2
        exact format_after_align (buildRows dataRows) i j cell h1 hj1 hj2
          hcell
      · exact widths_after_align (applyCurrencyFormat (buildRows dataRows))

/-- Claim C7 witness: the column-width law of the workbook built from the
one-row demonstration table. -/
theorem claim_C7_witness :
    wsDemo.widths = (List.range (numColsOf wsDemo.rows)).map
        (fun j => ((columnCells wsDemo.rows j).map
            (fun cell => cell.val.length)).foldr Nat.max 0 + 5) :=
  (claim_C7 [clienteDemo] wsDemo rfl).2
